import Mathlib

/-!
Shallow embedding of `src/main.py` (TradingView Data API): the pacing
function `rate_limit`, the bounded-retry fetcher `get_analysis_with_retry`,
the interval/symbol lookup tables, the multi-timeframe composition
`get_multi_timeframe`, and the price-action-level derivation performed by
`get_historical_with_levels`.

Floats are modelled as rationals; the wall clock and `time.sleep` are
modelled by an explicit clock value threaded through `rate_limit`; provider
calls are modelled as explicit `Except`-valued oracles passed in as
arguments; dictionary `.get` with a default becomes a total match with a
default branch.
-/

namespace TradingViewAPI

/-- One OHLCV row of the pandas frame returned by the historical provider
(`df` in `get_historical_with_levels`). -/
structure Candle where
  open_ : ℚ
  high : ℚ
  low : ℚ
  close : ℚ
  volume : ℚ
deriving DecidableEq

/-- The `price_action_levels` object assembled at lines 271-279 of
`src/main.py`. -/
structure PriceActionLevels where
  period_high : ℚ
  period_low : ℚ
  period_range : ℚ
  recent_high_3d : ℚ
  recent_low_3d : ℚ
  avg_candle_range : ℚ
  current_position_in_range : ℚ
deriving DecidableEq

/-- pandas `Series.max()` over a non-empty column; the `0` default for the
empty series is never reached by the code (it only evaluates columns of a
non-empty frame). -/
def seriesMax : List ℚ → ℚ
  | [] => 0
  | x :: xs => xs.foldl max x

/-- pandas `Series.min()` over a non-empty column (same convention as
`seriesMax`). -/
def seriesMin : List ℚ → ℚ
  | [] => 0
  | x :: xs => xs.foldl min x

/-- Model of `df.tail(72) if len(df) >= 72 else df` (line 227 of
`src/main.py`): the last 72 candles, or the whole frame when shorter. -/
def recent_window (df : List Candle) : List Candle :=
  if 72 ≤ df.length then df.drop (df.length - 72) else df

/-- The level computation of `get_historical_with_levels`
(lines 221-230 and 278 of `src/main.py`), factored over the fetched candle
list. `none` corresponds to the `df.empty` branch at line 212, where the
handler raises 404 before computing any level. -/
def computeLevels : List Candle → Option PriceActionLevels
  | [] => none
  | c :: cs =>
    let df := c :: cs
    let period_high := seriesMax (df.map Candle.high)
    let period_low := seriesMin (df.map Candle.low)
    let period_range := period_high - period_low
    let current_price := (df.getLast (List.cons_ne_nil c cs)).close
    let recent_df := recent_window df
    let recent_high := seriesMax (recent_df.map Candle.high)
    let recent_low := seriesMin (recent_df.map Candle.low)
    let avg_range := ((df.map (fun r => r.high - r.low)).sum) / (df.length : ℚ)
    some
      { period_high := period_high
        period_low := period_low
        period_range := period_range
        recent_high_3d := recent_high
        recent_low_3d := recent_low
        avg_candle_range := avg_range
        current_position_in_range :=
          if 0 < period_range then (current_price - period_low) / period_range * 100 else 50 }

/-- The request body schema `SymbolRequest` (lines 23-28 of `src/main.py`),
with the Python defaults recorded in `defaultRequest`. -/
structure SymbolRequest where
  symbol : String
  exchange : String
  screener : String
  interval : String
  lookback_days : Option Int
deriving DecidableEq

/-- The Python field defaults of `SymbolRequest`. -/
def defaultRequest (symbol : String) : SymbolRequest :=
  { symbol := symbol
    exchange := "OANDA"
    screener := "forex"
    interval := "1H"
    lookback_days := some 7 }

/-- The `tradingview_ta.Interval` enumeration members used by `src/main.py`. -/
inductive Interval where
  | INTERVAL_1_MINUTE
  | INTERVAL_5_MINUTES
  | INTERVAL_15_MINUTES
  | INTERVAL_1_HOUR
  | INTERVAL_4_HOURS
  | INTERVAL_1_DAY
deriving DecidableEq

/-- Model of `interval_map.get(request.interval, Interval.INTERVAL_1_HOUR)`
in `get_trading_data` (lines 70-79 of `src/main.py`): the live-indicator
provider's interval table with its 1-hour default. -/
def interval_map (i : String) : Interval :=
  match i with
  | "1M" => Interval.INTERVAL_1_MINUTE
  | "5M" => Interval.INTERVAL_5_MINUTES
  | "15M" => Interval.INTERVAL_15_MINUTES
  | "1H" => Interval.INTERVAL_1_HOUR
  | "4H" => Interval.INTERVAL_4_HOURS
  | "1D" => Interval.INTERVAL_1_DAY
  | _ => Interval.INTERVAL_1_HOUR

/-- Model of `interval_map.get(request.interval, "1h")` in
`get_historical_with_levels` (lines 195-204 of `src/main.py`): the
historical provider's interval table with its `"1h"` default. -/
def interval_map_yf (i : String) : String :=
  match i with
  | "1M" => "1m"
  | "5M" => "5m"
  | "15M" => "15m"
  | "1H" => "1h"
  | "4H" => "4h"
  | "1D" => "1d"
  | _ => "1h"

/-- Model of `symbol_map.get(request.symbol, f"{request.symbol}=X")` in
`get_historical_with_levels` (lines 174-192 of `src/main.py`). -/
def symbol_map_get (symbol : String) : String :=
  match symbol with
  | "EURUSD" => "EURUSD=X"
  | "GBPUSD" => "GBPUSD=X"
  | "USDJPY" => "USDJPY=X"
  | "AUDUSD" => "AUDUSD=X"
  | "USDCAD" => "USDCAD=X"
  | "USDCHF" => "USDCHF=X"
  | "NZDUSD" => "NZDUSD=X"
  | "GBPJPY" => "GBPJPY=X"
  | "EURJPY" => "EURJPY=X"
  | "XAUUSD" => "GC=F"
  | "XAGUSD" => "SI=F"
  | "BTCUSD" => "BTC-USD"
  | "ETHUSD" => "ETH-USD"
  | "BTCUSDT" => "BTC-USD"
  | "ETHUSDT" => "ETH-USD"
  | _ => symbol ++ "=X"

/-- The constant `MIN_REQUEST_INTERVAL = 0.5` (line 31 of `src/main.py`),
in seconds. -/
def MIN_REQUEST_INTERVAL : ℚ := 1 / 2

/-- The state touched by `rate_limit`: the wall clock (`time.time()`,
advanced by `time.sleep`) and the module-global `last_request_time`. -/
structure PacingState where
  now : ℚ
  last_request_time : ℚ
deriving DecidableEq

/-- Model of `rate_limit()` (lines 33-42 of `src/main.py`): read the
clock, sleep for the remaining spacing when the elapsed time since the
last dispatch is below `MIN_REQUEST_INTERVAL`, then store the post-sleep
clock reading into `last_request_time`.  `time.sleep(d)` is modelled as
advancing the clock by `d`. -/
def rate_limit (st : PacingState) : PacingState :=
  let current_time := st.now
  let time_since_last := current_time - st.last_request_time
  let slept :=
    if time_since_last < MIN_REQUEST_INTERVAL then
      { st with now := st.now + (MIN_REQUEST_INTERVAL - time_since_last) }
    else st
  { slept with last_request_time := slept.now }

/-- The loop body of `get_analysis_with_retry` (lines 44-56 of
`src/main.py`) from a given 0-based `attempt` index.  The provider call
`handler.get_analysis()` is the oracle `attempts`; the returned list
records the argument of each backoff `time.sleep` in order. -/
def get_analysis_with_retry_go {α : Type} (attempts : ℕ → Except String α)
    (max_retries attempt : ℕ) : Except String α × List ℕ :=
  match attempts attempt with
  | Except.ok a => (Except.ok a, [])
  | Except.error e =>
    if h : attempt < max_retries - 1 then
      let wait_time := (attempt + 1) * 2
      let rest := get_analysis_with_retry_go attempts max_retries (attempt + 1)
      (rest.1, wait_time :: rest.2)
    else
      (Except.error e, [])
termination_by max_retries - attempt
decreasing_by omega

/-- Model of `get_analysis_with_retry(handler, max_retries)` (lines 44-56
of `src/main.py`); the call sites use `max_retries = 3`. -/
def get_analysis_with_retry {α : Type} (attempts : ℕ → Except String α)
    (max_retries : ℕ) : Except String α × List ℕ :=
  get_analysis_with_retry_go attempts max_retries 0

/-- An `HTTPException(status_code, detail)` raised by the handlers. -/
structure HttpError where
  status : ℕ
  detail : String
deriving DecidableEq

/-- The list `timeframes = ["1H", "15M", "5M"]` (line 141 of
`src/main.py`). -/
def timeframes : List String := ["1H", "15M", "5M"]

/-- The `for` loop of `get_multi_timeframe` (lines 144-150 of
`src/main.py`): it assigns `request.interval = tf`, calls the
single-timeframe fetch on the mutated request, and accumulates the
per-timeframe results.  Any fetch failure propagates out immediately,
carrying no accumulated data; the second component is the request object
after the loop (the mutation is visible to the caller). -/
def gmtfLoop {α : Type} (fetch : SymbolRequest → Except String α) :
    List String → SymbolRequest → List (String × α) →
    Except String (List (String × α)) × SymbolRequest
  | [], req, acc => (Except.ok acc, req)
  | tf :: rest, req, acc =>
    let req' := { req with interval := tf }
    match fetch req' with
    | Except.error e => (Except.error e, req')
    | Except.ok d => gmtfLoop fetch rest req' (acc ++ [(tf, d)])

/-- Model of `get_multi_timeframe(request)` (lines 137-156 of
`src/main.py`): run the loop over `timeframes`; a failure is re-raised as
`HTTPException(500, str(e))`, discarding every already-fetched result. -/
def get_multi_timeframe {α : Type} (fetch : SymbolRequest → Except String α)
    (req : SymbolRequest) :
    Except HttpError (List (String × α)) × SymbolRequest :=
  match gmtfLoop fetch timeframes req [] with
  | (Except.ok result, req') => (Except.ok result, req')
  | (Except.error e, req') => (Except.error { status := 500, detail := e }, req')

/-- The live-indicator analysis fields consumed by
`get_historical_with_levels` (line 295 of `src/main.py`). -/
structure Analysis where
  recommendation : String
deriving DecidableEq

/-- The response body assembled by `get_historical_with_levels`
(lines 264-296 of `src/main.py`), restricted to the fields the claims
are about. -/
structure HistoricalOutput where
  symbol : String
  timeframe : String
  lookback_days : Option Int
  total_candles : ℕ
  price_action_levels : PriceActionLevels
  candles : List Candle
  recommendation : String
deriving DecidableEq

/-- Model of `get_historical_with_levels(request)` (lines 158-304 of
`src/main.py`), over the candle frame `df` returned by the historical
provider and the outcome of the live-indicator fetch.  An empty frame
raises `HTTPException(404, ...)` at lines 212-216 (re-raised unchanged by
the `except HTTPException` clause at line 300); any other failure is
wrapped as a 500 at line 304. -/
def get_historical_with_levels (req : SymbolRequest) (df : List Candle)
    (analysis : Except String Analysis) : Except HttpError HistoricalOutput :=
  let yahoo_symbol := symbol_map_get req.symbol
  match computeLevels df with
  | none =>
    Except.error
      { status := 404
        detail := "No data found for " ++ yahoo_symbol ++
          ". Symbol may not be available on Yahoo Finance." }
  | some levels =>
    match analysis with
    | Except.error e =>
      Except.error
        { status := 500, detail := "Error fetching historical data: " ++ e }
    | Except.ok a =>
      Except.ok
        { symbol := req.symbol
          timeframe := req.interval
          lookback_days := req.lookback_days
          total_candles := df.length
          price_action_levels := levels
          candles := df
          recommendation := a.recommendation }

/-- A concrete well-formed candle used as input to the level calculator. -/
def candleW : Candle :=
  { open_ := 1, high := 2, low := 1, close := 2, volume := 0 }

/-- The levels computed for the one-candle sequence `[candleW]`. -/
def levelsW : PriceActionLevels :=
  { period_high := 2, period_low := 1, period_range := 1,
    recent_high_3d := 2, recent_low_3d := 1, avg_candle_range := 1,
    current_position_in_range := 100 }

/-- A candle whose close lies above its own high: the raw provider frame
is not validated by the code, so such a row is accepted as-is. -/
def badCandle : Candle :=
  { open_ := 0, high := 10, low := 0, close := 20, volume := 0 }

/-- The levels computed for the one-candle sequence `[badCandle]`. -/
def badLevels : PriceActionLevels :=
  { period_high := 10, period_low := 0, period_range := 10,
    recent_high_3d := 10, recent_low_3d := 0, avg_candle_range := 10,
    current_position_in_range := 200 }

/-- A concrete attempt oracle: fails on attempts 0 and 1, succeeds on
attempt 2. -/
def attemptsW : ℕ → Except String ℕ :=
  fun n => if n = 2 then Except.ok 42 else Except.error "fail"

/-- A concrete fetch oracle: fails on the 15-minute timeframe, succeeds on
every other. -/
def fetchFail15 : SymbolRequest → Except String ℕ :=
  fun r => if r.interval = "15M" then Except.error "upstream boom" else Except.ok 1

lemma init_le_foldl_max (as : List ℚ) (a : ℚ) : a ≤ as.foldl max a := by
  induction as generalizing a with
  | nil => simp
  | cons b bs ih =>
    simp only [List.foldl_cons]
    exact le_trans (le_max_left a b) (ih (max a b))

lemma le_foldl_max (as : List ℚ) (a x : ℚ) (h : x = a ∨ x ∈ as) : x ≤ as.foldl max a := by
  induction as generalizing a with
  | nil =>
    rcases h with rfl | h
    · exact le_rfl
    · cases h
  | cons b bs ih =>
    simp only [List.foldl_cons]
    rcases h with rfl | h
    · exact le_trans (le_max_left x b) (init_le_foldl_max bs (max x b))
    · rcases List.mem_cons.mp h with rfl | h
      · exact le_trans (le_max_right a x) (init_le_foldl_max bs (max a x))
      · exact ih (max a b) (Or.inr h)

lemma mem_le_seriesMax (l : List ℚ) (x : ℚ) (hx : x ∈ l) : x ≤ seriesMax l := by
  cases l with
  | nil => cases hx
  | cons a as =>
    exact le_foldl_max as a x (by rcases List.mem_cons.mp hx with rfl | h; exacts [Or.inl rfl, Or.inr h])

lemma foldl_max_mem (as : List ℚ) (a : ℚ) : as.foldl max a ∈ a :: as := by
  induction as generalizing a with
  | nil => simp
  | cons b bs ih =>
    simp only [List.foldl_cons]
    rcases List.mem_cons.mp (ih (max a b)) with h | h
    · rcases max_choice a b with hc | hc
      · rw [h, hc]; exact List.mem_cons_self _ _
      · rw [h, hc]; exact List.mem_cons_of_mem _ (List.mem_cons_self _ _)
    · exact List.mem_cons_of_mem _ (List.mem_cons_of_mem _ h)

lemma seriesMax_mem (l : List ℚ) (h : l ≠ []) : seriesMax l ∈ l := by
  cases l with
  | nil => exact absurd rfl h
  | cons a as => exact foldl_max_mem as a

lemma foldl_min_le_init (as : List ℚ) (a : ℚ) : as.foldl min a ≤ a := by
  induction as generalizing a with
  | nil => simp
  | cons b bs ih =>
    simp only [List.foldl_cons]
    exact le_trans (ih (min a b)) (min_le_left a b)

lemma foldl_min_le (as : List ℚ) (a x : ℚ) (h : x = a ∨ x ∈ as) : as.foldl min a ≤ x := by
  induction as generalizing a with
  | nil =>
    rcases h with rfl | h
    · exact le_rfl
    · cases h
  | cons b bs ih =>
    simp only [List.foldl_cons]
    rcases h with rfl | h
    · exact le_trans (foldl_min_le_init bs (min x b)) (min_le_left x b)
    · rcases List.mem_cons.mp h with rfl | h
      · exact le_trans (foldl_min_le_init bs (min a x)) (min_le_right a x)
      · exact ih (min a b) (Or.inr h)

lemma seriesMin_le_mem (l : List ℚ) (x : ℚ) (hx : x ∈ l) : seriesMin l ≤ x := by
  cases l with
  | nil => cases hx
  | cons a as =>
    exact foldl_min_le as a x (by rcases List.mem_cons.mp hx with rfl | h; exacts [Or.inl rfl, Or.inr h])

lemma foldl_min_mem (as : List ℚ) (a : ℚ) : as.foldl min a ∈ a :: as := by
  induction as generalizing a with
  | nil => simp
  | cons b bs ih =>
    simp only [List.foldl_cons]
    rcases List.mem_cons.mp (ih (min a b)) with h | h
    · rcases min_choice a b with hc | hc
      · rw [h, hc]; exact List.mem_cons_self _ _
      · rw [h, hc]; exact List.mem_cons_of_mem _ (List.mem_cons_self _ _)
    · exact List.mem_cons_of_mem _ (List.mem_cons_of_mem _ h)

lemma seriesMin_mem (l : List ℚ) (h : l ≠ []) : seriesMin l ∈ l := by
  cases l with
  | nil => exact absurd rfl h
  | cons a as => exact foldl_min_mem as a

lemma recent_window_subset (df : List Candle) : recent_window df ⊆ df := by
  unfold recent_window
  split
  · exact List.drop_subset _ _
  · exact fun _ h => h

lemma recent_window_ne_nil (df : List Candle) (h : df ≠ []) : recent_window df ≠ [] := by
  unfold recent_window
  split
  · intro hnil
    have hlen := congrArg List.length hnil
    rw [List.length_drop] at hlen
    simp only [List.length_nil] at hlen
    omega
  · exact h

lemma computeLevels_candleW : computeLevels [candleW] = some levelsW := by
  simp only [computeLevels, recent_window, seriesMax, seriesMin, candleW, levelsW]
  norm_num [List.getLast]

lemma computeLevels_badCandle : computeLevels [badCandle] = some badLevels := by
  simp only [computeLevels, recent_window, seriesMax, seriesMin, badCandle, badLevels]
  norm_num [List.getLast]

lemma pos_div_bounds (lo cp hi : ℚ) (hr : 0 < hi - lo) (h1 : lo ≤ cp)
    (h2 : cp ≤ hi) :
    0 ≤ (cp - lo) / (hi - lo) * 100 ∧ (cp - lo) / (hi - lo) * 100 ≤ 100 := by
  constructor
  · exact mul_nonneg (div_nonneg (by linarith) (le_of_lt hr)) (by norm_num)
  · have hd : (cp - lo) / (hi - lo) ≤ 1 := (div_le_one hr).mpr (by linarith)
    calc (cp - lo) / (hi - lo) * 100 ≤ 1 * 100 :=
          mul_le_mul_of_nonneg_right hd (by norm_num)
      _ = 100 := one_mul 100

lemma gmtfLoop_snd {α : Type} (fetch : SymbolRequest → Except String α) :
    ∀ (tfs : List String) (req : SymbolRequest) (acc : List (String × α)),
      tfs ≠ [] →
      (gmtfLoop fetch tfs req acc).2.symbol = req.symbol ∧
      (gmtfLoop fetch tfs req acc).2.exchange = req.exchange ∧
      (gmtfLoop fetch tfs req acc).2.screener = req.screener ∧
      (gmtfLoop fetch tfs req acc).2.lookback_days = req.lookback_days ∧
      (gmtfLoop fetch tfs req acc).2.interval ∈ tfs
  | [], _, _, h => absurd rfl h
  | tf :: rest, req, acc, _ => by
    simp only [gmtfLoop]
    cases hf : fetch { req with interval := tf } with
    | error e => simp
    | ok d =>
      cases hrest : rest with
      | nil => simp [gmtfLoop]
      | cons t2 r2 =>
        have ih := gmtfLoop_snd fetch (t2 :: r2) { req with interval := tf }
          (acc ++ [(tf, d)]) (List.cons_ne_nil t2 r2)
        exact ⟨ih.1, ih.2.1, ih.2.2.1, ih.2.2.2.1,
          List.mem_cons_of_mem tf ih.2.2.2.2⟩

lemma gmtfLoop_error_of_mem {α : Type} (fetch : SymbolRequest → Except String α) :
    ∀ (tfs : List String) (req : SymbolRequest) (acc : List (String × α))
      (tf : String), tf ∈ tfs →
      (∃ e, fetch { req with interval := tf } = Except.error e) →
      ∃ e', (gmtfLoop fetch tfs req acc).1 = Except.error e'
  | [], _, _, _, hmem, _ => absurd hmem (List.not_mem_nil _)
  | tf0 :: rest, req, acc, tf, hmem, ⟨e, he⟩ => by
    simp only [gmtfLoop]
    cases hf : fetch { req with interval := tf0 } with
    | error e0 => exact ⟨e0, rfl⟩
    | ok d =>
      rcases List.mem_cons.mp hmem with rfl | hmem'
      · rw [he] at hf
        cases hf
      · exact gmtfLoop_error_of_mem fetch rest { req with interval := tf0 }
          (acc ++ [(tf0, d)]) tf hmem' ⟨e, he⟩

/-- C1 counterexample: a single-candle sequence has fewer than 7 candles,
yet the level computation of the historical-with-levels operation returns
computed levels, not null/absent. -/
theorem computeLevels_short_counterexample :
    ([candleW] : List Candle).length < 7 ∧ computeLevels [candleW] ≠ none := by
  refine ⟨by decide, ?_⟩
  simp [computeLevels]

/-- C1 amended: the level computation returns null/absent exactly when the
candle sequence is empty (the 404 branch); every non-empty sequence —
including sequences of fewer than 7 candles — gets computed levels. -/
theorem computeLevels_none_iff_nil (df : List Candle) :
    computeLevels df = none ↔ df = [] := by
  cases df with
  | nil => simp [computeLevels]
  | cons c cs => simp [computeLevels]

/-- C2 counterexample: the multi-timeframe operation mutates the request's
timeframe field in place; after a call in which every fetch succeeds, the
field no longer holds its original value "1H". -/
theorem query_mutated_counterexample :
    ((get_multi_timeframe (fun _ => Except.ok (0 : ℕ))
        (defaultRequest "EURUSD")).2).interval ≠
      (defaultRequest "EURUSD").interval := by
  decide

/-- C2 amended: all Query fields except the timeframe are unmodified by
the multi-timeframe composition, but it overwrites the request's
timeframe field with each timeframe of the fixed list in turn, leaving it
equal to the last timeframe attempted (an element of
`["1H", "15M", "5M"]`). -/
theorem query_fields_immutable_except_interval {α : Type}
    (fetch : SymbolRequest → Except String α) (req : SymbolRequest) :
    (get_multi_timeframe fetch req).2.symbol = req.symbol ∧
    (get_multi_timeframe fetch req).2.exchange = req.exchange ∧
    (get_multi_timeframe fetch req).2.screener = req.screener ∧
    (get_multi_timeframe fetch req).2.lookback_days = req.lookback_days ∧
    (get_multi_timeframe fetch req).2.interval ∈ timeframes := by
  have h := gmtfLoop_snd fetch timeframes req [] (by simp [timeframes])
  unfold get_multi_timeframe
  rcases hl : gmtfLoop fetch timeframes req [] with ⟨r, req'⟩
  rw [hl] at h
  cases r <;> simpa using h

/-- C3: between two successive dispatches, `rate_limit` leaves at least
`MIN_REQUEST_INTERVAL` (500 ms) between the previous stored dispatch
instant and the new one, and the shared `last_request_time` is updated to
the clock reading at the moment of actual dispatch (after any pacing
sleep), not to the clock reading at suspension start. -/
theorem rate_limit_spacing (st : PacingState) :
    MIN_REQUEST_INTERVAL ≤
      (rate_limit st).last_request_time - st.last_request_time ∧
    (rate_limit st).last_request_time = (rate_limit st).now := by
  unfold rate_limit
  dsimp only
  split
  · dsimp only
    exact ⟨by linarith, rfl⟩
  · next h => exact ⟨not_lt.mp h, rfl⟩

/-- C4: a fetch whose first two provider attempts fail and whose third
succeeds returns the successful snapshot, and the backoff sleeps performed
are exactly 2 seconds then 4 seconds (attempts bounded at the
`max_retries = 3` used by every call site). -/
theorem retry_fail_fail_ok {α : Type} (attempts : ℕ → Except String α)
    (e0 e1 : String) (a : α)
    (h0 : attempts 0 = Except.error e0) (h1 : attempts 1 = Except.error e1)
    (h2 : attempts 2 = Except.ok a) :
    get_analysis_with_retry attempts 3 = (Except.ok a, [2, 4]) := by
  unfold get_analysis_with_retry
  rw [get_analysis_with_retry_go, h0]
  norm_num
  rw [get_analysis_with_retry_go, h1]
  norm_num
  rw [get_analysis_with_retry_go, h2]
  simp

/-- Witness for C4 at a concrete attempt oracle. -/
theorem retry_fail_fail_ok_witness :
    attemptsW 0 = Except.error "fail" ∧ attemptsW 1 = Except.error "fail" ∧
    attemptsW 2 = Except.ok 42 ∧
    get_analysis_with_retry attemptsW 3 = (Except.ok 42, [2, 4]) :=
  ⟨rfl, rfl, rfl, retry_fail_fail_ok attemptsW "fail" "fail" 42 rfl rfl rfl⟩

/-- C5: if the fetch for any one timeframe of the fixed list fails, the
whole multi-timeframe request fails; the error result carries no
per-timeframe data, so already-fetched results are discarded and the
operation never returns an aggregate built from a strict subset of the
timeframes. -/
theorem multi_timeframe_all_or_nothing {α : Type}
    (fetch : SymbolRequest → Except String α) (req : SymbolRequest)
    (tf : String) (hmem : tf ∈ timeframes)
    (hfail : ∃ e, fetch { req with interval := tf } = Except.error e) :
    ∃ err, (get_multi_timeframe fetch req).1 = Except.error err := by
  obtain ⟨e', he'⟩ := gmtfLoop_error_of_mem fetch timeframes req [] tf hmem hfail
  unfold get_multi_timeframe
  rcases hl : gmtfLoop fetch timeframes req [] with ⟨r, req'⟩
  rw [hl] at he'
  dsimp only at he'
  subst he'
  exact ⟨{ status := 500, detail := e' }, rfl⟩

/-- Witness for C5 at a concrete request and fetch oracle. -/
theorem multi_timeframe_all_or_nothing_witness :
    ("15M" ∈ timeframes) ∧
    (∃ e, fetchFail15 { defaultRequest "EURUSD" with interval := "15M" } =
      Except.error e) ∧
    (∃ err, (get_multi_timeframe fetchFail15 (defaultRequest "EURUSD")).1 =
      Except.error err) :=
  ⟨by decide, ⟨"upstream boom", rfl⟩,
    multi_timeframe_all_or_nothing fetchFail15 (defaultRequest "EURUSD") "15M"
      (by decide) ⟨"upstream boom", rfl⟩⟩

/-- C6: for every candle sequence accepted by the level calculator,
`current_position_in_range` equals
`(last_close - period_low) / period_range * 100` when `period_range > 0`,
and equals exactly 50 when `period_high = period_low` (zero range). -/
theorem position_formula (c : Candle) (cs : List Candle) (l : PriceActionLevels)
    (h : computeLevels (c :: cs) = some l) :
    (0 < l.period_range →
      l.current_position_in_range =
        (((c :: cs).getLast (List.cons_ne_nil c cs)).close - l.period_low) /
          l.period_range * 100) ∧
    (l.period_high = l.period_low → l.current_position_in_range = 50) := by
  simp only [computeLevels, Option.some.injEq] at h
  subst h
  constructor
  · intro hr
    dsimp only at hr ⊢
    rw [if_pos hr]
  · intro hhl
    dsimp only at hhl ⊢
    rw [hhl, sub_self]
    simp

/-- Witness for C6 at the concrete one-candle sequence `[candleW]`. -/
theorem position_formula_witness :
    computeLevels [candleW] = some levelsW ∧
    ((0 < levelsW.period_range →
        levelsW.current_position_in_range =
          (([candleW].getLast (List.cons_ne_nil candleW [])).close -
              levelsW.period_low) / levelsW.period_range * 100) ∧
      (levelsW.period_high = levelsW.period_low →
        levelsW.current_position_in_range = 50)) :=
  ⟨computeLevels_candleW, position_formula candleW [] levelsW computeLevels_candleW⟩

/-- C7: the recency window is a suffix of the full sequence, so
`period_low ≤ recent_low_3d` and `recent_high_3d ≤ period_high` for every
accepted candle sequence. -/
theorem recent_within_period (c : Candle) (cs : List Candle)
    (l : PriceActionLevels) (h : computeLevels (c :: cs) = some l) :
    l.period_low ≤ l.recent_low_3d ∧ l.recent_high_3d ≤ l.period_high := by
  simp only [computeLevels, Option.some.injEq] at h
  subst h
  dsimp only
  have hne : recent_window (c :: cs) ≠ [] :=
    recent_window_ne_nil (c :: cs) (List.cons_ne_nil c cs)
  have hsub : recent_window (c :: cs) ⊆ (c :: cs) := recent_window_subset (c :: cs)
  constructor
  · have hmem : seriesMin ((recent_window (c :: cs)).map Candle.low) ∈
        (recent_window (c :: cs)).map Candle.low :=
      seriesMin_mem _ (by simpa using hne)
    exact seriesMin_le_mem _ _ (List.map_subset Candle.low hsub hmem)
  · have hmem : seriesMax ((recent_window (c :: cs)).map Candle.high) ∈
        (recent_window (c :: cs)).map Candle.high :=
      seriesMax_mem _ (by simpa using hne)
    exact mem_le_seriesMax _ _ (List.map_subset Candle.high hsub hmem)

/-- Witness for C7 at the concrete one-candle sequence `[candleW]`. -/
theorem recent_within_period_witness :
    computeLevels [candleW] = some levelsW ∧
    (levelsW.period_low ≤ levelsW.recent_low_3d ∧
      levelsW.recent_high_3d ≤ levelsW.period_high) :=
  ⟨computeLevels_candleW, recent_within_period candleW [] levelsW computeLevels_candleW⟩

/-- C8 counterexample: a sequence with positive range whose last close
lies outside [low, high] of its candle yields
`current_position_in_range = 200`, outside [0, 100]: the claimed bound
does not hold for every candle sequence with positive range. -/
theorem position_out_of_range_counterexample :
    computeLevels [badCandle] = some badLevels ∧ 0 < badLevels.period_range ∧
    ¬(0 ≤ badLevels.current_position_in_range ∧
      badLevels.current_position_in_range ≤ 100) :=
  ⟨computeLevels_badCandle, by norm_num [badLevels], by norm_num [badLevels]⟩

/-- C8 amended: for every candle sequence whose candles are well-formed
(each close lies within the candle's own [low, high]) and whose range is
positive, `current_position_in_range` falls within [0, 100] without any
clamping, because the last close then lies within
[period_low, period_high]. -/
theorem position_in_range_of_wellformed (c : Candle) (cs : List Candle)
    (l : PriceActionLevels) (h : computeLevels (c :: cs) = some l)
    (hr : 0 < l.period_range)
    (hwf : ∀ x ∈ c :: cs, x.low ≤ x.close ∧ x.close ≤ x.high) :
    0 ≤ l.current_position_in_range ∧ l.current_position_in_range ≤ 100 := by
  simp only [computeLevels, Option.some.injEq] at h
  subst h
  dsimp only at hr ⊢
  have hlast : (c :: cs).getLast (List.cons_ne_nil c cs) ∈ c :: cs :=
    List.getLast_mem _
  obtain ⟨hwl, hwh⟩ := hwf _ hlast
  have h1 : seriesMin ((c :: cs).map Candle.low) ≤
      ((c :: cs).getLast (List.cons_ne_nil c cs)).low :=
    seriesMin_le_mem _ _ (List.mem_map_of_mem Candle.low hlast)
  have h2 : ((c :: cs).getLast (List.cons_ne_nil c cs)).high ≤
      seriesMax ((c :: cs).map Candle.high) :=
    mem_le_seriesMax _ _ (List.mem_map_of_mem Candle.high hlast)
  rw [if_pos hr]
  exact pos_div_bounds _ _ _ hr (le_trans h1 hwl) (le_trans hwh h2)

/-- Witness for the amended C8 at the concrete well-formed sequence
`[candleW]`. -/
theorem position_in_range_of_wellformed_witness :
    computeLevels [candleW] = some levelsW ∧ 0 < levelsW.period_range ∧
    (∀ x ∈ ([candleW] : List Candle), x.low ≤ x.close ∧ x.close ≤ x.high) ∧
    (0 ≤ levelsW.current_position_in_range ∧
      levelsW.current_position_in_range ≤ 100) :=
  ⟨computeLevels_candleW, by norm_num [levelsW], by norm_num [candleW],
    position_in_range_of_wellformed candleW [] levelsW computeLevels_candleW
      (by norm_num [levelsW]) (by norm_num [candleW])⟩

/-- C9: for every timeframe code outside the recognized set
{1M, 5M, 15M, 1H, 4H, 1D}, both interval mappings — the live-indicator
provider's table and the historical provider's table — resolve to the
1-hour interval; being total functions, they never throw. -/
theorem interval_maps_default_to_1h (s : String)
    (h : s ∉ (["1M", "5M", "15M", "1H", "4H", "1D"] : List String)) :
    interval_map s = Interval.INTERVAL_1_HOUR ∧ interval_map_yf s = "1h" := by
  constructor
  · unfold interval_map
    split <;> simp_all
  · unfold interval_map_yf
    split <;> simp_all

/-- Witness for C9 at the concrete unrecognized code "2H". -/
theorem interval_maps_default_to_1h_witness :
    ("2H" ∉ (["1M", "5M", "15M", "1H", "4H", "1D"] : List String)) ∧
    (interval_map "2H" = Interval.INTERVAL_1_HOUR ∧ interval_map_yf "2H" = "1h") :=
  ⟨by decide, interval_maps_default_to_1h "2H" (by decide)⟩

/-- C10: when the historical provider returns an empty candle sequence,
`get_historical_with_levels` fails with the distinct not-found error
(status 404), not the generic upstream error (status 500), regardless of
the request and of the outcome of the live-indicator fetch. -/
theorem historical_empty_df_is_404 (req : SymbolRequest)
    (analysis : Except String Analysis) :
    get_historical_with_levels req [] analysis =
      Except.error
        { status := 404
          detail := "No data found for " ++ symbol_map_get req.symbol ++
            ". Symbol may not be available on Yahoo Finance." } := rfl

end TradingViewAPI
